import Mathlib

/-!
Shallow embedding of the request-admission and usage-billing engine of the
multi-tenant-saas-api repository (Go), together with proofs checking the
natural-language specification against it.

Conventions of the embedding:
* time is modelled as `Int` epoch seconds (Postgres `TIMESTAMP` values and
  Go `time.Time` values alike);
* UUIDs are modelled as `Nat` identifiers;
* monetary values (`shopspring/decimal`, Postgres `DECIMAL(10,2)`) are
  modelled as exact rationals `Rat`; `decimal.NewFromFloat(0.01)` and
  `decimal.NewFromFloat(0.005)` denote exactly 1/100 and 1/200, because the
  float64 literals 0.01 and 0.005 round-trip to the decimal strings "0.01"
  and "0.005" under shortest-representation conversion;
* the Postgres tables behave as lists of rows inside a `Db` record, and each
  sqlc query from sql/queries/db_queries.sql is embedded as a function on
  `Db`;
* external library primitives (HMAC, JSON decoding, UUID parsing, the Stripe
  webhook verifier) are oracle function parameters threaded through the
  handlers, since their implementations are not part of this repository.
-/

namespace MultiTenantSaas

/-- The `plan_type` enum from the schema: 'free' | 'starter' | 'pro'. -/
inductive PlanType
  | free
  | starter
  | pro
deriving DecidableEq, Repr

/-- The `billing_status` enum from the schema: 'pending' | 'paid' | 'overdue'. -/
inductive BillingStatus
  | statusPending
  | statusPaid
  | statusOverdue
deriving DecidableEq, Repr

/-- A row of the `organizations` table (fields relevant to the core). -/
structure Organization where
  id : Nat
  name : String
  email : String
  plan : PlanType
deriving DecidableEq, Repr

/-- A row of the `api_keys` table (fields relevant to the core). -/
structure ApiKey where
  id : Nat
  organizationId : Nat
  key : String
  isActive : Bool
deriving DecidableEq, Repr

/-- A row of the `usage_records` table. -/
structure UsageRecord where
  organizationId : Nat
  apiKeyId : Nat
  endpoint : String
  method : String
  statusCode : Int
  createdAt : Int
deriving DecidableEq, Repr

/-- A row of the `billing_cycles` table. -/
structure BillingCycle where
  id : Nat
  organizationId : Nat
  periodStart : Int
  periodEnd : Int
  totalRequests : Int
  totalAmount : Rat
  status : BillingStatus
  createdAt : Int
deriving DecidableEq, Repr

/-- The persistent store: the four tables the core touches. -/
structure Db where
  organizations : List Organization
  apiKeys : List ApiKey
  usageRecords : List UsageRecord
  billingCycles : List BillingCycle
deriving DecidableEq, Repr

/-- Query `CountOrganizationUsage` restricted to a given list of rows:
`SELECT COUNT(*) FROM usage_records WHERE organization_id = $1 AND
created_at >= $2 AND created_at <= $3` (note: both bounds inclusive). -/
def countUsageIn (records : List UsageRecord) (orgId : Nat) (fromT toT : Int) : Int :=
  ((records.filter fun r =>
    r.organizationId == orgId && decide (fromT ≤ r.createdAt) && decide (r.createdAt ≤ toT)).length : Int)

/-- Query `CountOrganizationUsage` on the store. -/
def countOrganizationUsage (db : Db) (orgId : Nat) (fromT toT : Int) : Int :=
  countUsageIn db.usageRecords orgId fromT toT

/-- Query `GetBillingCycle`: `SELECT * FROM billing_cycles WHERE id = $1`. -/
def getBillingCycle (db : Db) (cycleId : Nat) : Option BillingCycle :=
  db.billingCycles.find? fun c => c.id == cycleId

/-- Query `UpdateBillingCycleStatus`:
`UPDATE billing_cycles SET status = $1 WHERE id = $2`. -/
def updateBillingCycleStatus (db : Db) (cycleId : Nat) (s : BillingStatus) : Db :=
  { db with billingCycles :=
      db.billingCycles.map fun c =>
        if c.id == cycleId then { c with status := s } else c }

/-- Query `GetAPIKeyByKey`: look up an api key row by its secret value,
requiring `is_active = true` (the join with `organizations` only adds the
owning org's columns, summarised here by `organizationId`). -/
def getAPIKeyByKey (db : Db) (key : String) : Option ApiKey :=
  db.apiKeys.find? fun k => k.key == key && k.isActive

/-- Embedding of `calculateBillingAmount` from internal/jobs/billing.go (lines 102-133),
with `decimal` arithmetic embedded as exact rational arithmetic. -/
def calculateBillingAmount (requests : Int) (plan : PlanType) : Rat :=
  match plan with
  | PlanType.free =>
      -- Free plan: First 1000 requests are free, then $0.01 per request
      if requests ≤ 1000 then 0
      else ((requests - 1000 : Int) : Rat) * (1 / 100)
  | PlanType.starter =>
      -- Starter: $29 base + $0.01 per request
      29 + (requests : Rat) * (1 / 100)
  | PlanType.pro =>
      -- Pro: $99 base + $0.005 per request (50% discount)
      99 + (requests : Rat) * (1 / 200)

/-- The billing-cycle row built by `createBillingCycleForOrg`
(internal/jobs/billing.go lines 57-94): usage counted over the closed
interval `[periodStart, periodEnd]`, amount from `calculateBillingAmount`,
status `'pending'`.  `newId` stands for the UUID the insert generates. -/
def mkBillingCycle (records : List UsageRecord) (org : Organization)
    (periodStart periodEnd : Int) (newId : Nat) (now : Int) : BillingCycle :=
  let totalRequests := countUsageIn records org.id periodStart periodEnd
  { id := newId
    organizationId := org.id
    periodStart := periodStart
    periodEnd := periodEnd
    totalRequests := totalRequests
    totalAmount := calculateBillingAmount totalRequests org.plan
    status := BillingStatus.statusPending
    createdAt := now }

/-- Embedding of `createBillingCycleForOrg` (internal/jobs/billing.go lines 57-94): counts
the organization's usage in the period and unconditionally inserts a new
`billing_cycles` row — the function performs NO check for an already-existing
cycle of the same organization and period. -/
def createBillingCycleForOrg (db : Db) (org : Organization)
    (periodStart periodEnd : Int) (newId : Nat) (now : Int) : Db :=
  { db with billingCycles :=
      db.billingCycles ++ [mkBillingCycle db.usageRecords org periodStart periodEnd newId now] }

/-- The per-page loop of `GenerateMonthlyBillingCycles`: process every
organization in order, threading the store and a fresh-id supply. -/
def generateGo (db : Db) (orgs : List Organization) (nextId : Nat)
    (periodStart periodEnd now : Int) : Db :=
  match orgs with
  | [] => db
  | org :: rest =>
      generateGo (createBillingCycleForOrg db org periodStart periodEnd nextId now)
        rest (nextId + 1) periodStart periodEnd now

/-- Embedding of `GenerateMonthlyBillingCycles` (internal/jobs/billing.go lines 16-55):
`periodStart` is the first instant of the previous calendar month and
`periodEnd := periodStart.AddDate(0,1,0).Add(-time.Second)`, i.e. one second
before the first instant `nextMonthStart` of the current month.  The paginated
`ListOrganizations` loop visits every organization exactly once. -/
def generateMonthlyBillingCycles (db : Db) (nextId : Nat)
    (monthStart nextMonthStart now : Int) : Db :=
  generateGo db db.organizations nextId monthStart (nextMonthStart - 1) now

/-- Pair each organization with the fresh id it receives during generation. -/
def orgsWithIds : Nat → List Organization → List (Nat × Organization)
  | _, [] => []
  | n, o :: rest => (n, o) :: orgsWithIds (n + 1) rest

/-- Number of billing-cycle rows stored for a given (tenant, period) pair. -/
def countCyclesForOrgPeriod (db : Db) (orgId : Nat) (ps pe : Int) : Nat :=
  (db.billingCycles.filter fun c =>
    c.organizationId == orgId && c.periodStart == ps && c.periodEnd == pe).length

/-- Modelled from the spec's words, for comparison only: the number of usage
events of a tenant in the half-open interval `[fromT, toT)` ("count
UsageEvents in [period_start, period_end)"). -/
def specHalfOpenUsageCount (records : List UsageRecord) (orgId : Nat) (fromT toT : Int) : Int :=
  ((records.filter fun r =>
    r.organizationId == orgId && decide (fromT ≤ r.createdAt) && decide (r.createdAt < toT)).length : Int)

/-- Query `GetPendingBillingCycles` (db_queries.sql lines 228-237):
`WHERE bc.status = 'pending' AND bc.period_end < NOW()` (the join with
`organizations` only adds display columns). -/
def getPendingBillingCycles (db : Db) (now : Int) : List BillingCycle :=
  db.billingCycles.filter fun c =>
    c.status == BillingStatus.statusPending && decide (c.periodEnd < now)

/-- Seven days in seconds: `7 * 24 * time.Hour` from billing.go line 151. -/
def gracePeriodSeconds : Int := 7 * 24 * 3600

/-- Embedding of `CheckAndMarkOverdueBillings` (internal/jobs/billing.go lines 137-183):
fetch the pending cycles once, then for each one whose
`period_end + 7 days` lies strictly in the past (`now.After(dueDate)`),
set its status to 'overdue'. -/
def checkAndMarkOverdueBillings (db : Db) (now : Int) : Db :=
  (getPendingBillingCycles db now).foldl
    (fun d c =>
      if decide (now > c.periodEnd + gracePeriodSeconds) then
        updateBillingCycleStatus d c.id BillingStatus.statusOverdue
      else d)
    db

/-- Embedding of `AutoPayFreePlanInvoices` (internal/jobs/billing.go lines 187-216): fetch
the pending cycles once, then mark every cycle whose total amount is zero as
'paid'. -/
def autoPayFreePlanInvoices (db : Db) (now : Int) : Db :=
  (getPendingBillingCycles db now).foldl
    (fun d c =>
      if c.totalAmount == 0 then
        updateBillingCycleStatus d c.id BillingStatus.statusPaid
      else d)
    db

/-! ### Payment-provider webhook handlers -/

/-- The HTTP answer a webhook handler produces: a status code and, for error
answers, the `ApiError.Code` string of the JSON body. -/
structure WebhookResponse where
  status : Nat
  errorCode : Option String
deriving DecidableEq, Repr

/-- A parsed `stripe.Event` as the handler consumes it: the event type and
the raw `event.Data.Raw` bytes handed to `json.Unmarshal`. -/
structure StripeEvent where
  type : String
  raw : List Nat
deriving DecidableEq, Repr

/-- The fields of a `stripe.CheckoutSession` the handler reads:
`session.Metadata["billing_cycle_id"]` and
`session.Metadata["organization_id"]` (a Go map lookup yields `""` for an
absent key). -/
structure StripeSession where
  billingCycleId : String
  organizationId : String
deriving DecidableEq, Repr

/-- Library primitives the Stripe handler calls, treated as oracles:
`webhook.ConstructEvent` (signature verification, `none` = error),
`json.Unmarshal` into a checkout session, and `uuid.Parse`. -/
structure StripeEnv where
  verify : List Nat → String → Option StripeEvent
  parseSession : List Nat → Option StripeSession
  parseUuid : String → Option Nat

/-- Embedding of `stripeWebhookHandler` (handlers file, lines 280-371): verify the
signature, then for a `checkout.session.completed` event locate the billing
cycle named in the metadata and set its status to 'paid'; every failure after
successful verification is logged and acknowledged with HTTP 200.  `updOk`
models whether the `UpdateBillingCycleStatus` datastore call succeeds (its
error path also answers 200). -/
def stripeWebhookHandler (env : StripeEnv) (db : Db) (updOk : Bool)
    (body : List Nat) (sigHeader : Option String) : Db × WebhookResponse :=
  match sigHeader with
  | none => (db, ⟨401, some "MISSING_SIGNATURE"⟩)
  | some sig =>
    match env.verify body sig with
    | none => (db, ⟨401, some "INVALID_SIGNATURE"⟩)
    | some event =>
      if event.type = "checkout.session.completed" then
        match env.parseSession event.raw with
        | none => (db, ⟨200, none⟩)
        | some session =>
          if session.billingCycleId = "" then (db, ⟨200, none⟩)
          else
            match env.parseUuid session.billingCycleId with
            | none => (db, ⟨200, none⟩)
            | some cycleId =>
              match getBillingCycle db cycleId with
              | none => (db, ⟨200, none⟩)
              | some _ =>
                if updOk then
                  (updateBillingCycleStatus db cycleId BillingStatus.statusPaid, ⟨200, none⟩)
                else (db, ⟨200, none⟩)
      else (db, ⟨200, none⟩)

/-- The fields of a Paystack event the handler reads: `event.Event` and the
`metadata.billing_cycle_id` / `metadata.organization_id` entries of
`event.Data` (`none` models an absent key or a failed type assertion). -/
structure PaystackMetadata where
  billingCycleId : Option String
  organizationId : Option String
deriving DecidableEq, Repr

/-- A parsed Paystack webhook event; `metadata = none` models
`event.Data["metadata"]` missing or not being a JSON object. -/
structure PaystackEvent where
  event : String
  metadata : Option PaystackMetadata
deriving DecidableEq, Repr

/-- Library primitives the Paystack handler calls, treated as oracles:
`hmacSha512Hex secret payload` is the hex digest
`hex.EncodeToString(hmac.New(sha512.New, secret).Sum(payload))` computed by
`PaystackProvider.VerifyWebhookSignature`, `parseEvent` is `json.Unmarshal`
into a `PaystackWebhookEvent`, and `parseUuid` is `uuid.Parse`. -/
structure PaystackEnv where
  hmacSha512Hex : String → List Nat → String
  parseEvent : List Nat → Option PaystackEvent
  parseUuid : String → Option Nat

/-- Embedding of `paystackWebhookHandler` (handlers file, lines 373-472): reject 401 when
the `X-Paystack-Signature` header is absent or differs from the HMAC-SHA512
hex digest of the raw body under the provider secret; afterwards, for a
`charge.success` event locate the billing cycle named in the metadata and set
its status to 'paid'; every failure after successful verification is logged
and acknowledged with HTTP 200.  `updOk` as in the Stripe handler. -/
def paystackWebhookHandler (env : PaystackEnv) (secret : String) (db : Db) (updOk : Bool)
    (body : List Nat) (sigHeader : Option String) : Db × WebhookResponse :=
  match sigHeader with
  | none => (db, ⟨401, some "MISSING_SIGNATURE"⟩)
  | some sig =>
    if sig = env.hmacSha512Hex secret body then
      match env.parseEvent body with
      | none => (db, ⟨200, none⟩)
      | some event =>
        if event.event = "charge.success" then
          match event.metadata with
          | none => (db, ⟨200, none⟩)
          | some md =>
            match md.billingCycleId with
            | none => (db, ⟨200, none⟩)
            | some bcid =>
              if bcid = "" then (db, ⟨200, none⟩)
              else
                match env.parseUuid bcid with
                | none => (db, ⟨200, none⟩)
                | some cycleId =>
                  match getBillingCycle db cycleId with
                  | none => (db, ⟨200, none⟩)
                  | some _ =>
                    if updOk then
                      (updateBillingCycleStatus db cycleId BillingStatus.statusPaid, ⟨200, none⟩)
                    else (db, ⟨200, none⟩)
        else (db, ⟨200, none⟩)
    else (db, ⟨401, some "INVALID_SIGNATURE"⟩)

/-! ### Redis counter store and the request pipeline -/

/-- A rate-limit counter key: the Go code builds the string
`"rate_limit:" + orgID + ":" + timeBucket`; we model it as the pair of the
organization id and the formatted time bucket. -/
abbrev RedisKey := Nat × Int

/-- A Redis value holding a counter: its integer value and, if `EXPIRE` was
issued for the key, the epoch second at which it expires. -/
structure RedisEntry where
  count : Int
  expireAt : Option Int
deriving DecidableEq, Repr

/-- The shared counter store. `up = false` models the store being
unreachable: every command returns an error. -/
structure RedisState where
  up : Bool
  entries : RedisKey → Option RedisEntry

/-- Read a key, honouring expiry: a key whose `expireAt` is ≤ `now` no longer
exists. -/
def redisLookup (rs : RedisState) (now : Int) (k : RedisKey) : Option RedisEntry :=
  match rs.entries k with
  | none => none
  | some e =>
    match e.expireAt with
    | none => some e
    | some t => if t ≤ now then none else some e

/-- Redis `INCR`: create the key with value 1 (and no TTL) when absent or
expired, otherwise add one; returns the post-increment value.  `none` models
the command failing because the store is unreachable. -/
def redisIncr (rs : RedisState) (now : Int) (k : RedisKey) : Option (Int × RedisState) :=
  if rs.up then
    match redisLookup rs now k with
    | some e =>
        some (e.count + 1,
          { rs with entries := fun k' =>
              if k' = k then some { e with count := e.count + 1 } else rs.entries k' })
    | none =>
        some (1,
          { rs with entries := fun k' =>
              if k' = k then some ⟨1, none⟩ else rs.entries k' })
  else none

/-- Redis `EXPIRE key dur`: set the key's expiry `dur` seconds from now. -/
def redisExpire (rs : RedisState) (now : Int) (k : RedisKey) (dur : Int) : RedisState :=
  match rs.entries k with
  | none => rs
  | some e =>
      { rs with entries := fun k' =>
          if k' = k then some { e with expireAt := some (now + dur) } else rs.entries k' }

/-- The post-increment counter value currently visible for a key. -/
def currentCount (rs : RedisState) (now : Int) (k : RedisKey) : Int :=
  match redisLookup rs now k with
  | some e => e.count
  | none => 0

/-- The expiry recorded for a key (regardless of whether it has passed). -/
def expireAtOf (rs : RedisState) (k : RedisKey) : Option Int :=
  match rs.entries k with
  | none => none
  | some e => e.expireAt

/-- An inbound HTTP request, reduced to the headers the pipeline reads. -/
structure Request where
  xApiKey : Option String
  endpoint : String
  method : String
deriving DecidableEq, Repr

/-- The request-scoped context values (`context.WithValue` keys `user_id`,
`org_id`, `api_key_id`); a missing value models a failed type assertion. -/
structure ReqContext where
  userId : Option Nat
  orgId : Option Nat
  apiKeyId : Option Nat
deriving DecidableEq, Repr

/-- The context the server hands to the handler chain before any middleware
has attached values. -/
def initialCtx : ReqContext := ⟨none, none, none⟩

/-- An HTTP response as the pipeline observes it: final status code, the
`ApiError.Code` of an error body, and the three `X-RateLimit-*` headers. -/
structure Response where
  status : Nat
  errorCode : Option String
  rlLimit : Option Int
  rlRemaining : Option Int
  rlReset : Option Int
deriving DecidableEq, Repr

/-- One observable step of the pipeline, recorded in execution order. -/
inductive Step
  | identityResolve
  | rateLimitCheck
  | handlerRun
  | usageRecord
deriving DecidableEq, Repr

/-- Server-side state an in-flight request can read or write: the database,
the Redis store, the current wall-clock second, the trace of executed
pipeline steps, and the usage rows written by the background recorder
(org id, api key id, observed status code). -/
structure ServerState where
  db : Db
  redis : RedisState
  now : Int
  trace : List Step
  usageWrites : List (Nat × Nat × Nat)

/-- An `http.Handler`: consumes the request, its context and the server
state, and produces the new state and the response. -/
abbrev HandlerM := Request → ReqContext → ServerState → ServerState × Response

/-- Embedding of `APIKeyMiddleware` (middleware file): read `X-API-Key`, reject 401 when
absent or unknown/inactive, otherwise attach the key id and owning org id to
the context and invoke the wrapped handler.  Entering the middleware records
an `identityResolve` step.  (The fire-and-forget `UpdateAPIKeyLastUsed`
write is not modelled; no claim mentions it.) -/
def apiKeyMiddleware (next : HandlerM) : HandlerM := fun req ctx st =>
  let st := { st with trace := st.trace ++ [Step.identityResolve] }
  match req.xApiKey with
  | none => (st, ⟨401, some "MISSING_API_KEY", none, none, none⟩)
  | some key =>
    match getAPIKeyByKey st.db key with
    | none => (st, ⟨401, some "INVALID_API_KEY", none, none, none⟩)
    | some keyData =>
        next req { ctx with apiKeyId := some keyData.id, orgId := some keyData.organizationId } st

/-- Embedding of `RateLimitMiddleware` (middleware file, lines 107-164): read the org id
the API-key middleware put into the context (500 INTERNAL_ERROR when the
value is absent), `INCR` the counter keyed by org id and the current time
bucket, admit the request when `INCR` errors (fail open), `EXPIRE` the key to
60 s on the first increment, reject 429 RATE_LIMIT_EXCEEDED when the
post-increment count exceeds the limit, and otherwise set the
`X-RateLimit-*` headers and invoke the wrapped handler.  `bucket` is the
time-bucket function encoded by the `time.Now().Format(...)` layout string:
`fun t => t / 60` for the layout `"2006-01-02-15-04"` of src/middleware.go
(calendar minute).  Entering the middleware records a `rateLimitCheck`
step. -/
def rateLimitMiddleware (bucket : Int → Int) (limit : Int) (next : HandlerM) : HandlerM :=
  fun req ctx st =>
    let st := { st with trace := st.trace ++ [Step.rateLimitCheck] }
    match ctx.orgId with
    | none => (st, ⟨500, some "INTERNAL_ERROR", none, none, none⟩)
    | some orgId =>
      let k : RedisKey := (orgId, bucket st.now)
      match redisIncr st.redis st.now k with
      | none => next req ctx st
      | some (count, rs1) =>
        let rs2 := if count == 1 then redisExpire rs1 st.now k 60 else rs1
        let st := { st with redis := rs2 }
        if decide (count > limit) then
          (st, ⟨429, some "RATE_LIMIT_EXCEEDED", some limit, some 0, some (st.now + 60)⟩)
        else
          let (st', resp) := next req ctx st
          (st', { resp with
                    rlLimit := some limit
                    rlRemaining := some (limit - count)
                    rlReset := some (st.now + 60) })

/-- Embedding of `UsageTrackingMiddleware` (middleware file): read the context values with
`, _` type assertions (a missing value yields the zero UUID, modelled by 0),
run the wrapped handler through a status-recording writer, then append one
usage write carrying the observed status code and record a `usageRecord`
step. -/
def usageTrackingMiddleware (next : HandlerM) : HandlerM := fun req ctx st =>
  let orgId := ctx.orgId.getD 0
  let apiKeyId := ctx.apiKeyId.getD 0
  let (st', resp) := next req ctx st
  ({ st' with
      trace := st'.trace ++ [Step.usageRecord]
      usageWrites := st'.usageWrites ++ [(orgId, apiKeyId, resp.status)] },
    resp)

/-- The chain built in cmd/api/main.go lines 141-145 for
`POST /api/v1/messages/send`:
`usageTrackingMiddleware(rateLimitMiddleware(apiKeyMiddleware(handler)))`.
The innermost handler (`sendMessageHandler`) is a parameter. -/
def messageSendChain (bucket : Int → Int) (limit : Int) (handler : HandlerM) : HandlerM :=
  usageTrackingMiddleware (rateLimitMiddleware bucket limit (apiKeyMiddleware handler))

/-- A downstream handler that replies 200 with no headers of its own,
recording that it ran. -/
def okHandler : HandlerM := fun _ _ st =>
  ({ st with trace := st.trace ++ [Step.handlerRun] }, ⟨200, none, none, none, none⟩)

/-- The minute bucket encoded by the layout `"2006-01-02-15-04"`:
requests in the same wall-clock minute share a bucket. -/
def minuteBucket (t : Int) : Int := t / 60

/-- Modelled from the spec's words, for comparison only: "the epoch seconds
at which the current window expires" for the minute-aligned window containing
`t`. -/
def specWindowExpiry (t : Int) : Int := (t / 60 + 1) * 60

/-! ### Observation helpers used by the theorems -/

/-- Overwrite only the status field of a cycle row. -/
def setStatus (s : BillingStatus) (c : BillingCycle) : BillingCycle :=
  { c with status := s }

/-- The stored status of the cycle row with the given id, if any. -/
def cycleStatus (db : Db) (cycleId : Nat) : Option BillingStatus :=
  (getBillingCycle db cycleId).map fun c => c.status

/-- Two cycle rows agreeing on every column except possibly `status`. -/
def sameExceptStatus (c c' : BillingCycle) : Prop :=
  c'.id = c.id ∧ c'.organizationId = c.organizationId ∧
  c'.periodStart = c.periodStart ∧ c'.periodEnd = c.periodEnd ∧
  c'.totalRequests = c.totalRequests ∧ c'.totalAmount = c.totalAmount ∧
  c'.createdAt = c.createdAt

/-- The frame of a status transition: the other three tables are untouched
and every billing-cycle row keeps all columns except possibly `status`. -/
def frameOnly (db db' : Db) : Prop :=
  db'.organizations = db.organizations ∧ db'.apiKeys = db.apiKeys ∧
  db'.usageRecords = db.usageRecords ∧
  List.Forall₂ sameExceptStatus db.billingCycles db'.billingCycles

/-- Rows not satisfying `p` come out of the operation completely unchanged
(rows compared positionally, before/after). -/
def untouchedExcept (db db' : Db) (p : BillingCycle → Prop) : Prop :=
  ∀ pr ∈ List.zip db.billingCycles db'.billingCycles, ¬ p pr.1 → pr.2 = pr.1

/-- A row that was 'paid' before the operation is still 'paid' after it
(rows compared positionally, before/after). -/
def paidStays (db db' : Db) : Prop :=
  ∀ pr ∈ List.zip db.billingCycles db'.billingCycles,
    pr.1.status = BillingStatus.statusPaid → pr.2.status = BillingStatus.statusPaid

/-! ### Concrete instances used by witnesses and counterexamples -/

/-- A store with no rows. -/
def emptyDb : Db := ⟨[], [], [], []⟩

/-- An organization on the free plan. -/
def org1 : Organization := ⟨1, "Acme", "acme@example.com", PlanType.free⟩

/-- A store holding just `org1`, with no usage. -/
def dbOneOrg : Db := ⟨[org1], [], [], []⟩

/-- Epoch second of the start of the generated period in the examples. -/
def exMonthStart : Int := 0

/-- Epoch second of the start of the following month (31 days later). -/
def exNextMonthStart : Int := 2678400

/-- A usage event of `org1` stamped exactly at the generated period's
`period_end`, i.e. one second before the next month starts. -/
def usageAtPeriodEnd : UsageRecord :=
  ⟨1, 1, "/api/v1/messages/send", "POST", 200, exNextMonthStart - 1⟩

/-- A store holding `org1` and the single boundary usage event. -/
def dbBoundaryUsage : Db := ⟨[org1], [], [usageAtPeriodEnd], []⟩

/-- Stripe oracle that accepts every signature and resolves the metadata to
billing cycle 5. -/
def envStripeEx : StripeEnv :=
  ⟨fun _ _ => some ⟨"checkout.session.completed", []⟩,
   fun _ => some ⟨"cycle-5", "org-1"⟩,
   fun _ => some 5⟩

/-- A pending cycle row with id 5, used by the replay example. -/
def pendingCycle5 : BillingCycle := ⟨5, 1, 0, 100, 10, 29, BillingStatus.statusPending, 0⟩

/-- A store holding just `pendingCycle5`. -/
def dbPending5 : Db := ⟨[], [], [], [pendingCycle5]⟩

/-- Paystack oracle for the examples: fixed digest, fixed parse results. -/
def envPaystackEx : PaystackEnv :=
  ⟨fun _ _ => "digest", fun _ => some ⟨"charge.success", some ⟨some "cycle-5", some "org-1"⟩⟩,
   fun _ => some 5⟩

/-- A reachable, empty counter store. -/
def emptyRedis : RedisState := ⟨true, fun _ => none⟩

/-- An unreachable counter store. -/
def downRedis : RedisState := ⟨false, fun _ => none⟩

/-- A programmatic request carrying an API key header. -/
def exReq : Request := ⟨some "key-abc", "/api/v1/messages/send", "POST"⟩

/-- A context in which the API-key middleware has already attached org 1. -/
def exCtxOrg : ReqContext := ⟨none, some 1, some 2⟩

/-- Server state at second 90 with an empty, reachable counter store. -/
def exState90 : ServerState := ⟨emptyDb, emptyRedis, 90, [], []⟩

/-- Server state with the counter store down. -/
def exStateDown : ServerState := ⟨emptyDb, downRedis, 0, [], []⟩

/-- First rate-limited request of the example minute, at second 90. -/
def exRun1 : ServerState × Response :=
  rateLimitMiddleware minuteBucket 60 okHandler exReq exCtxOrg exState90

/-- Second request of the same minute, ten seconds later. -/
def exRun2 : ServerState × Response :=
  rateLimitMiddleware minuteBucket 60 okHandler exReq exCtxOrg { exRun1.1 with now := 100 }

/-- An old pending cycle (period ended far beyond the grace period). -/
def oldPendingCycle : BillingCycle := ⟨3, 1, 0, 100, 7, 29, BillingStatus.statusPending, 0⟩

/-- A paid cycle of the same age. -/
def paidCycle : BillingCycle := ⟨2, 1, 0, 100, 5, 29, BillingStatus.statusPaid, 0⟩

/-- A store holding the old pending cycle and the paid cycle. -/
def dbSweepEx : Db := ⟨[], [], [], [oldPendingCycle, paidCycle]⟩

/-! ## Theorems -/

/-- C6: for every request count n ≥ 0 the billing amount is exact decimal
arithmetic: Free is 0 up to the 1000 included requests and 0.01 per request
on the excess only; Starter is the 29 base fee plus 0.01 on all n requests;
Pro is the 99 base fee plus the discounted 0.005 rate on all n requests.
Exactness is inherent to the `Rat` embedding of `shopspring/decimal`. -/
theorem calculateBillingAmount_closed_forms (n : Int) (_h : 0 ≤ n) :
    (n ≤ 1000 → calculateBillingAmount n PlanType.free = 0) ∧
    (1000 < n →
      calculateBillingAmount n PlanType.free = ((n - 1000 : Int) : Rat) * (1 / 100)) ∧
    calculateBillingAmount n PlanType.starter = 29 + (n : Rat) * (1 / 100) ∧
    calculateBillingAmount n PlanType.pro = 99 + (n : Rat) * (1 / 200) := by
  refine ⟨?_, ?_, rfl, rfl⟩
  · intro hn
    simp [calculateBillingAmount, hn]
  · intro hn
    simp [calculateBillingAmount, not_le.mpr hn]

/-- Witness for C6 at n = 1500 (the spec's own concrete scenario). -/
theorem calculateBillingAmount_closed_forms_witness :
    (0 : Int) ≤ 1500 ∧
    (((1500 : Int) ≤ 1000 → calculateBillingAmount 1500 PlanType.free = 0) ∧
      ((1000 : Int) < 1500 →
        calculateBillingAmount 1500 PlanType.free = (((1500 : Int) - 1000 : Int) : Rat) * (1 / 100)) ∧
      calculateBillingAmount 1500 PlanType.starter = 29 + ((1500 : Int) : Rat) * (1 / 100) ∧
      calculateBillingAmount 1500 PlanType.pro = 99 + ((1500 : Int) : Rat) * (1 / 200)) :=
  ⟨by decide, calculateBillingAmount_closed_forms 1500 (by decide)⟩

/-- C5: the Paystack webhook endpoint answers 401 exactly when the signature
header is missing (code MISSING_SIGNATURE) or differs from the HMAC-SHA512
digest of the raw body under the provider secret (code INVALID_SIGNATURE);
once the signature matches, the answer is 200 regardless of the store, the
update outcome, and the parsed content of the event. -/
theorem paystackWebhook_status_characterization
    (env : PaystackEnv) (secret : String) (db : Db) (updOk : Bool)
    (body : List Nat) (sigHeader : Option String) :
    (paystackWebhookHandler env secret db updOk body sigHeader).2 =
      match sigHeader with
      | none => ⟨401, some "MISSING_SIGNATURE"⟩
      | some sig =>
          if sig = env.hmacSha512Hex secret body then ⟨200, none⟩
          else ⟨401, some "INVALID_SIGNATURE"⟩ := by
  cases sigHeader with
  | none => rfl
  | some sig =>
    show (paystackWebhookHandler env secret db updOk body (some sig)).2 =
      (if sig = env.hmacSha512Hex secret body then (⟨200, none⟩ : WebhookResponse)
       else ⟨401, some "INVALID_SIGNATURE"⟩)
    simp only [paystackWebhookHandler]
    by_cases hs : sig = env.hmacSha512Hex secret body
    · rw [if_pos hs, if_pos hs]
      repeat' (split <;> try rfl)
    · rw [if_neg hs, if_neg hs]

/-- C8: when the counter store is unreachable, the quota middleware admits
the request: it behaves exactly like running the wrapped handler directly
(after recording that the check ran); in particular it never answers 429. -/
theorem rateLimit_fails_open (bucket : Int → Int) (limit : Int) (next : HandlerM)
    (req : Request) (ctx : ReqContext) (st : ServerState) (orgId : Nat)
    (horg : ctx.orgId = some orgId) (hdown : st.redis.up = false) :
    rateLimitMiddleware bucket limit next req ctx st
      = next req ctx { st with trace := st.trace ++ [Step.rateLimitCheck] } := by
  unfold rateLimitMiddleware redisIncr
  simp [horg, hdown]

/-- Witness for C8: with the store down, the chain answers exactly what the
downstream handler answers. -/
theorem rateLimit_fails_open_witness :
    exCtxOrg.orgId = some 1 ∧ exStateDown.redis.up = false ∧
    rateLimitMiddleware minuteBucket 60 okHandler exReq exCtxOrg exStateDown
      = okHandler exReq exCtxOrg
          { exStateDown with trace := exStateDown.trace ++ [Step.rateLimitCheck] } :=
  ⟨rfl, rfl, rateLimit_fails_open minuteBucket 60 okHandler exReq exCtxOrg exStateDown 1 rfl rfl⟩

/-- C2 (evaluating the code at the failing input): the chain that
cmd/api/main.go builds for `POST /api/v1/messages/send` runs the quota check
before API-key resolution, so the rate limiter looks for the org id before
anything has attached it: for EVERY inbound request, every limit and every
downstream handler, the chain answers 500 INTERNAL_ERROR, records only the
rateLimitCheck and usageRecord steps (never identityResolve or handlerRun),
and writes a usage row with zero org and key ids. -/
theorem messageSend_chain_quota_before_identity (bucket : Int → Int) (limit : Int)
    (handler : HandlerM) (req : Request) (st : ServerState) :
    messageSendChain bucket limit handler req initialCtx st
      = ({ st with
            trace := st.trace ++ [Step.rateLimitCheck, Step.usageRecord]
            usageWrites := st.usageWrites ++ [(0, 0, 500)] },
         ⟨500, some "INTERNAL_ERROR", none, none, none⟩) := by
  unfold messageSendChain usageTrackingMiddleware rateLimitMiddleware initialCtx
  simp

/-- C1 (evaluating the code at the failing input): `createBillingCycleForOrg`
checks nothing before inserting and the schema has no unique constraint on
(organization_id, period), so running monthly generation twice for the same
tenant and period stores two billing-cycle rows where the spec demands one
(the first run alone stores one). -/
theorem generate_twice_duplicates_cycle :
    countCyclesForOrgPeriod
      (generateMonthlyBillingCycles dbOneOrg 0 exMonthStart exNextMonthStart exNextMonthStart)
      1 exMonthStart (exNextMonthStart - 1) = 1 ∧
    countCyclesForOrgPeriod
      (generateMonthlyBillingCycles
        (generateMonthlyBillingCycles dbOneOrg 0 exMonthStart exNextMonthStart exNextMonthStart)
        1 exMonthStart exNextMonthStart exNextMonthStart)
      1 exMonthStart (exNextMonthStart - 1) = 2 := by
  decide

/-- Helper: the generation loop leaves the other tables untouched and appends
one pending row per organization, with usage counted against the initial
store (inserting cycles never changes `usage_records`). -/
theorem generateGo_spec (periodStart periodEnd now : Int) :
    ∀ (orgs : List Organization) (db : Db) (nextId : Nat),
      generateGo db orgs nextId periodStart periodEnd now
        = { db with billingCycles := (db.billingCycles ++
              (orgsWithIds nextId orgs).map
                fun p => mkBillingCycle db.usageRecords p.2 periodStart periodEnd p.1 now) }
  | [], db, nextId => by simp [generateGo, orgsWithIds]
  | org :: rest, db, nextId => by
      rw [generateGo, generateGo_spec periodStart periodEnd now rest _ (nextId + 1)]
      simp [createBillingCycleForOrg, orgsWithIds]

/-- C9 (amended): monthly generation appends, per organization, one pending
cycle whose period is `[monthStart, nextMonthStart - 1]` — the stored
`period_end` is one second BEFORE the next month starts — and whose
`total_requests` counts the usage events of the closed interval
`period_start ≤ t ≤ period_end` (`created_at >= $2 AND created_at <= $3`),
which over integer seconds is the half-open interval
`[period_start, period_end + 1)`, not `[period_start, period_end)`. -/
theorem generateMonthlyBillingCycles_spec (db : Db) (nextId : Nat)
    (monthStart nextMonthStart now : Int) :
    (generateMonthlyBillingCycles db nextId monthStart nextMonthStart now).billingCycles
      = db.billingCycles ++
          (orgsWithIds nextId db.organizations).map
            (fun p => mkBillingCycle db.usageRecords p.2 monthStart (nextMonthStart - 1) p.1 now) ∧
    (generateMonthlyBillingCycles db nextId monthStart nextMonthStart now).organizations
      = db.organizations ∧
    (generateMonthlyBillingCycles db nextId monthStart nextMonthStart now).usageRecords
      = db.usageRecords ∧
    ∀ (records : List UsageRecord) (orgId : Nat) (fromT toT : Int),
      countUsageIn records orgId fromT toT
        = specHalfOpenUsageCount records orgId fromT (toT + 1) := by
  unfold generateMonthlyBillingCycles
  rw [generateGo_spec]
  refine ⟨rfl, rfl, rfl, ?_⟩
  intro records orgId fromT toT
  unfold countUsageIn specHalfOpenUsageCount
  congr 2
  apply List.filter_congr
  intro r _
  have hiff : r.createdAt ≤ toT ↔ r.createdAt < toT + 1 := Int.lt_add_one_iff.symm
  simp [hiff]

/-- C9 (counterexample): with one usage event stamped exactly at the
generated `period_end` (one second before the next month), the stored
`total_requests` is 1, while the spec's half-open count over
`[period_start, period_end)` is 0. -/
theorem totalRequests_vs_halfOpen_count :
    ((generateMonthlyBillingCycles dbBoundaryUsage 0 exMonthStart exNextMonthStart
        exNextMonthStart).billingCycles.head?.map
      (fun c => (c.organizationId, c.periodStart, c.periodEnd, c.totalRequests)))
      = some (1, exMonthStart, exNextMonthStart - 1, 1) ∧
    specHalfOpenUsageCount dbBoundaryUsage.usageRecords 1 exMonthStart (exNextMonthStart - 1) = 0 ∧
    ((generateMonthlyBillingCycles dbBoundaryUsage 0 exMonthStart exNextMonthStart
        exNextMonthStart).billingCycles.head?.map (fun c => c.totalRequests))
      ≠ some (specHalfOpenUsageCount dbBoundaryUsage.usageRecords 1 exMonthStart
          (exNextMonthStart - 1)) := by
  decide

/-- Helper: a key a successful lookup returned has not expired. -/
theorem redisLookup_not_expired {rs : RedisState} {now : Int} {k : RedisKey}
    {e : RedisEntry} (h : redisLookup rs now k = some e) :
    ∀ t, e.expireAt = some t → ¬ t ≤ now := by
  intro t ht
  unfold redisLookup at h
  split at h
  · exact absurd h (by simp)
  · split at h
    · cases h
      rw [ht] at *
      simp_all
    · split at h
      · exact absurd h (by simp)
      · cases h
        simp_all

/-- C3 (amended): with the store reachable, the quota middleware increments
the counter keyed by org id and the wall-clock minute of the request, sets
the key's 60 s expiry exactly when the post-increment value is 1, answers
429 RATE_LIMIT_EXCEEDED with limit, remaining 0 and reset exactly when the
post-increment value exceeds the limit, and otherwise admits with remaining
= limit minus the post-increment count; in BOTH cases the reported
`X-RateLimit-Reset` is the request's arrival time plus 60 seconds, NOT the
epoch second at which the minute-aligned window expires. -/
theorem rateLimitMiddleware_spec (limit : Int) (req : Request) (ctx : ReqContext)
    (st : ServerState) (orgId : Nat)
    (horg : ctx.orgId = some orgId) (hup : st.redis.up = true) :
    currentCount (rateLimitMiddleware minuteBucket limit okHandler req ctx st).1.redis st.now
        (orgId, st.now / 60)
      = currentCount st.redis st.now (orgId, st.now / 60) + 1 ∧
    (currentCount st.redis st.now (orgId, st.now / 60) + 1 = 1 →
      expireAtOf (rateLimitMiddleware minuteBucket limit okHandler req ctx st).1.redis
          (orgId, st.now / 60)
        = some (st.now + 60)) ∧
    (currentCount st.redis st.now (orgId, st.now / 60) + 1 > limit →
      (rateLimitMiddleware minuteBucket limit okHandler req ctx st).2
        = ⟨429, some "RATE_LIMIT_EXCEEDED", some limit, some 0, some (st.now + 60)⟩) ∧
    (currentCount st.redis st.now (orgId, st.now / 60) + 1 ≤ limit →
      (rateLimitMiddleware minuteBucket limit okHandler req ctx st).2
        = ⟨200, none, some limit,
            some (limit - (currentCount st.redis st.now (orgId, st.now / 60) + 1)),
            some (st.now + 60)⟩) := by
  have h60 : ¬ (st.now + 60 ≤ st.now) := by omega
  unfold rateLimitMiddleware minuteBucket okHandler redisIncr
  simp only [horg, hup, if_true]
  cases hl : redisLookup st.redis st.now (orgId, st.now / 60) with
  | none =>
    have hcc : currentCount st.redis st.now (orgId, st.now / 60) = 0 := by
      unfold currentCount; rw [hl]
    rw [hcc]
    refine ⟨?_, ?_, ?_, ?_⟩
    · by_cases hlim : (1 : Int) > limit <;>
        simp [hlim, currentCount, redisLookup, redisExpire, expireAtOf, h60]
    · intro _
      by_cases hlim : (1 : Int) > limit <;>
        simp [hlim, currentCount, redisLookup, redisExpire, expireAtOf, h60]
    · intro h
      have hlim : (1 : Int) > limit := by omega
      simp [hlim, redisExpire, redisLookup]
    · intro h
      have hnlim : ¬ ((1 : Int) > limit) := by omega
      simp [hnlim, redisExpire, redisLookup]
  | some e =>
    have hcc : currentCount st.redis st.now (orgId, st.now / 60) = e.count := by
      unfold currentCount; rw [hl]
    rw [hcc]
    have hnx := redisLookup_not_expired hl
    by_cases h1 : e.count + 1 = 1
    · refine ⟨?_, ?_, ?_, ?_⟩
      · by_cases hlim : (1 : Int) > limit <;>
          simp [h1, hlim, currentCount, redisLookup, redisExpire, expireAtOf, h60]
      · intro _
        by_cases hlim : (1 : Int) > limit <;>
          simp [h1, hlim, currentCount, redisLookup, redisExpire, expireAtOf, h60]
      · intro h
        have hlim : (1 : Int) > limit := by omega
        simp [h1, hlim, redisExpire, redisLookup]
      · intro h
        have hnlim : ¬ ((1 : Int) > limit) := by omega
        simp [h1, hnlim, redisExpire, redisLookup]
    · refine ⟨?_, fun h => absurd h h1, ?_, ?_⟩
      · by_cases hlim : e.count + 1 > limit <;>
          · cases hex : e.expireAt with
            | none =>
              simp [beq_iff_eq, h1, hlim, currentCount, redisLookup, hex]
            | some t =>
              simp [beq_iff_eq, h1, hlim, currentCount, redisLookup, hex, hnx t hex]
      · intro hlim
        simp [beq_iff_eq, h1, hlim]
      · intro hlim
        have hnlim : ¬ (e.count + 1 > limit) := by omega
        simp [beq_iff_eq, h1, hnlim]

/-- Witness for C3 at the first request of an empty minute. -/
theorem rateLimitMiddleware_spec_witness :
    exCtxOrg.orgId = some 1 ∧ exState90.redis.up = true ∧
    (currentCount (rateLimitMiddleware minuteBucket 60 okHandler exReq exCtxOrg exState90).1.redis
        exState90.now (1, exState90.now / 60)
      = currentCount exState90.redis exState90.now (1, exState90.now / 60) + 1 ∧
    (currentCount exState90.redis exState90.now (1, exState90.now / 60) + 1 = 1 →
      expireAtOf (rateLimitMiddleware minuteBucket 60 okHandler exReq exCtxOrg exState90).1.redis
          (1, exState90.now / 60)
        = some (exState90.now + 60)) ∧
    (currentCount exState90.redis exState90.now (1, exState90.now / 60) + 1 > 60 →
      (rateLimitMiddleware minuteBucket 60 okHandler exReq exCtxOrg exState90).2
        = ⟨429, some "RATE_LIMIT_EXCEEDED", some 60, some 0, some (exState90.now + 60)⟩) ∧
    (currentCount exState90.redis exState90.now (1, exState90.now / 60) + 1 ≤ 60 →
      (rateLimitMiddleware minuteBucket 60 okHandler exReq exCtxOrg exState90).2
        = ⟨200, none, some 60,
            some (60 - (currentCount exState90.redis exState90.now (1, exState90.now / 60) + 1)),
            some (exState90.now + 60)⟩)) :=
  ⟨rfl, rfl, rateLimitMiddleware_spec 60 exReq exCtxOrg exState90 1 rfl rfl⟩

/-- C3 (counterexample): two requests in the minute [60,120): the first at
second 90 (key TTL becomes 150), the second at second 100.  The header the
second request receives reports reset = 160 = arrival + 60, which is neither
the aligned window's expiry (120) nor even the key's recorded TTL (150). -/
theorem rateLimit_reset_not_window_expiry :
    exRun2.2.rlReset = some 160 ∧
    specWindowExpiry 100 = 120 ∧
    exRun2.2.rlReset ≠ some (specWindowExpiry 100) ∧
    expireAtOf exRun2.1.redis (1, 1) = some 150 ∧
    exRun2.2.rlReset ≠ expireAtOf exRun2.1.redis (1, 1) := by
  decide

/-- Helper: reading a cycle after a status update reads the old row with the
status rewritten when the ids match. -/
theorem getBillingCycle_update (db : Db) (cid' : Nat) (s : BillingStatus) (cid : Nat) :
    getBillingCycle (updateBillingCycleStatus db cid' s) cid
      = (getBillingCycle db cid).map
          (fun c => if c.id == cid' then { c with status := s } else c) := by
  unfold getBillingCycle updateBillingCycleStatus
  rw [List.find?_map]
  have hpf : ((fun c : BillingCycle => c.id == cid) ∘ fun c =>
      if c.id == cid' then { c with status := s } else c)
      = fun c : BillingCycle => c.id == cid := by
    funext c
    by_cases h : c.id == cid' <;> simp [h, Function.comp]
  rw [hpf]

/-- Helper: repeating the same status update changes nothing. -/
theorem updateBillingCycleStatus_idem (db : Db) (cid : Nat) (s : BillingStatus) :
    updateBillingCycleStatus (updateBillingCycleStatus db cid s) cid s
      = updateBillingCycleStatus db cid s := by
  unfold updateBillingCycleStatus
  simp only [List.map_map]
  have hff : ((fun c : BillingCycle => if c.id == cid then { c with status := s } else c) ∘
      fun c : BillingCycle => if c.id == cid then { c with status := s } else c)
      = fun c : BillingCycle => if c.id == cid then { c with status := s } else c := by
    funext c
    by_cases h : c.id == cid <;> simp [h, Function.comp]
  rw [hff]

/-- C4: delivering the same successful-payment webhook twice marks the cycle
Paid exactly once: before the first delivery the cycle is not Paid; the first
delivery answers 200 and leaves it Paid; the second delivery leaves the store
exactly as the first left it and still answers 200. -/
theorem stripeWebhook_replay_idempotent
    (env : StripeEnv) (db : Db) (body : List Nat) (sig : String)
    (event : StripeEvent) (session : StripeSession) (cid : Nat) (c : BillingCycle)
    (hver : env.verify body sig = some event)
    (hty : event.type = "checkout.session.completed")
    (hparse : env.parseSession event.raw = some session)
    (hbc : session.billingCycleId ≠ "")
    (huuid : env.parseUuid session.billingCycleId = some cid)
    (hget : getBillingCycle db cid = some c)
    (hnotpaid : c.status = BillingStatus.statusPending ∨
      c.status = BillingStatus.statusOverdue) :
    cycleStatus db cid ≠ some BillingStatus.statusPaid ∧
    (stripeWebhookHandler env db true body (some sig)).2.status = 200 ∧
    cycleStatus (stripeWebhookHandler env db true body (some sig)).1 cid
      = some BillingStatus.statusPaid ∧
    stripeWebhookHandler env (stripeWebhookHandler env db true body (some sig)).1 true body
        (some sig)
      = ((stripeWebhookHandler env db true body (some sig)).1, ⟨200, none⟩) := by
  have hrun1 : stripeWebhookHandler env db true body (some sig)
      = (updateBillingCycleStatus db cid BillingStatus.statusPaid, ⟨200, none⟩) := by
    unfold stripeWebhookHandler
    simp [hver, hty, hparse, hbc, huuid, hget]
  have hcid : (c.id == cid) = true := by
    have h := hget
    unfold getBillingCycle at h
    simpa using List.find?_some h
  have hget1 : getBillingCycle (updateBillingCycleStatus db cid BillingStatus.statusPaid) cid
      = some { c with status := BillingStatus.statusPaid } := by
    rw [getBillingCycle_update, hget]
    show some (if c.id == cid then { c with status := BillingStatus.statusPaid } else c) = _
    rw [if_pos hcid]
  refine ⟨?_, ?_, ?_, ?_⟩
  · unfold cycleStatus
    rw [hget]
    rcases hnotpaid with h | h <;> simp [h]
  · rw [hrun1]
  · rw [hrun1]
    unfold cycleStatus
    rw [hget1]
    rfl
  · rw [hrun1]
    unfold stripeWebhookHandler
    simp [hver, hty, hparse, hbc, huuid, hget1, updateBillingCycleStatus_idem]

/-- Witness for C4: a pending cycle (id 5), a verifying oracle, and the same
event delivered twice. -/
theorem stripeWebhook_replay_idempotent_witness :
    envStripeEx.verify [] "sig" = some ⟨"checkout.session.completed", []⟩ ∧
    (⟨"checkout.session.completed", ([] : List Nat)⟩ : StripeEvent).type
      = "checkout.session.completed" ∧
    envStripeEx.parseSession [] = some ⟨"cycle-5", "org-1"⟩ ∧
    (⟨"cycle-5", "org-1"⟩ : StripeSession).billingCycleId ≠ "" ∧
    envStripeEx.parseUuid "cycle-5" = some 5 ∧
    getBillingCycle dbPending5 5 = some pendingCycle5 ∧
    (pendingCycle5.status = BillingStatus.statusPending ∨
      pendingCycle5.status = BillingStatus.statusOverdue) ∧
    (cycleStatus dbPending5 5 ≠ some BillingStatus.statusPaid ∧
      (stripeWebhookHandler envStripeEx dbPending5 true [] (some "sig")).2.status = 200 ∧
      cycleStatus (stripeWebhookHandler envStripeEx dbPending5 true [] (some "sig")).1 5
        = some BillingStatus.statusPaid ∧
      stripeWebhookHandler envStripeEx
          (stripeWebhookHandler envStripeEx dbPending5 true [] (some "sig")).1 true []
          (some "sig")
        = ((stripeWebhookHandler envStripeEx dbPending5 true [] (some "sig")).1,
            ⟨200, none⟩)) :=
  ⟨rfl, rfl, rfl, by decide, rfl, by decide, Or.inl rfl,
    stripeWebhook_replay_idempotent envStripeEx dbPending5 [] "sig"
      ⟨"checkout.session.completed", []⟩ ⟨"cycle-5", "org-1"⟩ 5 pendingCycle5
      rfl rfl rfl (by decide) rfl (by decide) (Or.inl rfl)⟩

/-- Helper: `sameExceptStatus` is reflexive. -/
theorem sameExceptStatus_refl (c : BillingCycle) : sameExceptStatus c c :=
  ⟨rfl, rfl, rfl, rfl, rfl, rfl, rfl⟩

/-- Helper: a sweep walking a list of selected cycles and rewriting the
status of those satisfying `cond` acts on the store as one pointwise map,
marking every row whose id is among the selected ids. -/
theorem sweepFold_eq (cond : BillingCycle → Bool) (s : BillingStatus) :
    ∀ (l : List BillingCycle) (db : Db),
      l.foldl (fun d c => if cond c then updateBillingCycleStatus d c.id s else d) db
        = { db with billingCycles := db.billingCycles.map fun x =>
              if ((l.filter cond).map fun c => c.id).contains x.id then { x with status := s }
              else x }
  | [], db => by simp
  | c :: l, db => by
      rw [List.foldl_cons]
      by_cases hc : cond c = true
      · rw [if_pos hc, sweepFold_eq cond s l (updateBillingCycleStatus db c.id s),
          List.filter_cons_of_pos hc]
        unfold updateBillingCycleStatus
        simp only [List.map_map, List.map_cons, List.contains_cons]
        congr 1
        apply List.map_congr_left
        intro x _
        simp only [Function.comp_apply]
        by_cases hx : (x.id == c.id) = true
        · rw [if_pos hx]
          by_cases hl : ((l.filter cond).map fun c => c.id).contains x.id = true <;>
            simp [hx, hl]
        · rw [if_neg hx]
          by_cases hl : ((l.filter cond).map fun c => c.id).contains x.id = true
          · simp only [hl, if_true, Bool.or_eq_true, or_true, if_pos (Or.inr hl)]
          · have hor : ¬ ((x.id == c.id) || ((l.filter cond).map fun c => c.id).contains x.id)
                = true := by
              simp only [Bool.or_eq_true]
              rintro (h | h)
              · exact hx h
              · exact hl h
            rw [if_neg hl, if_neg hor]
      · rw [if_neg hc, sweepFold_eq cond s l db, List.filter_cons_of_neg hc]

/-- Helper: with unique row ids, a sweep over the selected pending cycles
marks exactly the rows that are pending, period-ended and satisfy `cond`. -/
theorem sweep_nodup_eq (db : Db) (now : Int) (cond : BillingCycle → Bool) (s : BillingStatus)
    (hNodup : (db.billingCycles.map fun c => c.id).Nodup) :
    ((getPendingBillingCycles db now).foldl
        (fun d c => if cond c then updateBillingCycleStatus d c.id s else d) db).billingCycles
      = db.billingCycles.map fun x =>
          if x.status = BillingStatus.statusPending ∧ x.periodEnd < now ∧ cond x = true
          then { x with status := s } else x := by
  rw [sweepFold_eq]
  show db.billingCycles.map _ = db.billingCycles.map _
  apply List.map_congr_left
  intro x hx
  have hinj := List.inj_on_of_nodup_map hNodup
  have hiff :
      ((((getPendingBillingCycles db now).filter cond).map fun c => c.id).contains x.id = true)
        ↔ (x.status = BillingStatus.statusPending ∧ x.periodEnd < now ∧ cond x = true) := by
    constructor
    · intro hcont
      obtain ⟨y, hyf, hyid⟩ := List.mem_map.mp (List.elem_iff.mp hcont)
      obtain ⟨hysel, hycond⟩ := List.mem_filter.mp hyf
      obtain ⟨hybc, hypred⟩ := List.mem_filter.mp hysel
      have hyx : y = x := hinj hybc hx hyid
      subst hyx
      rw [Bool.and_eq_true] at hypred
      exact ⟨by simpa using hypred.1, by simpa using hypred.2, hycond⟩
    · rintro ⟨h1, h2, h3⟩
      have hxsel : x ∈ getPendingBillingCycles db now :=
        List.mem_filter.mpr ⟨hx, by simp [h1, h2]⟩
      have hxf : x ∈ (getPendingBillingCycles db now).filter cond :=
        List.mem_filter.mpr ⟨hxsel, h3⟩
      exact List.elem_iff.mpr (List.mem_map.mpr ⟨x, hxf, rfl⟩)
  by_cases ht : x.status = BillingStatus.statusPending ∧ x.periodEnd < now ∧ cond x = true
  · rw [if_pos (hiff.mpr ht), if_pos ht]
  · rw [if_neg (fun hcont => ht (hiff.mp hcont)), if_neg ht]

/-- Helper: with unique ids the overdue sweep is the pointwise map marking
exactly the pending rows whose `period_end` plus the grace period lies
strictly in the past. -/
theorem checkAndMarkOverdue_eq (db : Db) (now : Int)
    (hNodup : (db.billingCycles.map fun c => c.id).Nodup) :
    (checkAndMarkOverdueBillings db now).billingCycles
      = db.billingCycles.map fun x =>
          if x.status = BillingStatus.statusPending ∧ now > x.periodEnd + gracePeriodSeconds
          then { x with status := BillingStatus.statusOverdue } else x := by
  unfold checkAndMarkOverdueBillings
  rw [sweep_nodup_eq db now (fun c => decide (now > c.periodEnd + gracePeriodSeconds))
      BillingStatus.statusOverdue hNodup]
  apply List.map_congr_left
  intro x _
  have hg : gracePeriodSeconds = 604800 := rfl
  by_cases ht : x.status = BillingStatus.statusPending ∧ now > x.periodEnd + gracePeriodSeconds
  · rw [if_pos ⟨ht.1, by omega, by simp [ht.2]⟩, if_pos ht]
  · rw [if_neg ?_, if_neg ht]
    rintro ⟨h1, -, h3⟩
    exact ht ⟨h1, by simpa using h3⟩

/-- Helper: with unique ids the auto-pay sweep is the pointwise map marking
exactly the pending, period-ended, zero-amount rows as paid. -/
theorem autoPay_eq (db : Db) (now : Int)
    (hNodup : (db.billingCycles.map fun c => c.id).Nodup) :
    (autoPayFreePlanInvoices db now).billingCycles
      = db.billingCycles.map fun x =>
          if x.status = BillingStatus.statusPending ∧ x.periodEnd < now ∧ x.totalAmount = 0
          then { x with status := BillingStatus.statusPaid } else x := by
  unfold autoPayFreePlanInvoices
  rw [sweep_nodup_eq db now (fun c => c.totalAmount == 0) BillingStatus.statusPaid hNodup]
  apply List.map_congr_left
  intro x _
  by_cases ht : x.status = BillingStatus.statusPending ∧ x.periodEnd < now ∧ x.totalAmount = 0
  · rw [if_pos ⟨ht.1, ht.2.1, by simp [ht.2.2]⟩, if_pos ht]
  · rw [if_neg ?_, if_neg ht]
    rintro ⟨h1, h2, h3⟩
    exact ht ⟨h1, h2, by simpa using h3⟩

/-- Helper: the sweeps never touch the other three tables. -/
theorem checkAndMarkOverdue_fields (db : Db) (now : Int) :
    (checkAndMarkOverdueBillings db now).organizations = db.organizations ∧
    (checkAndMarkOverdueBillings db now).apiKeys = db.apiKeys ∧
    (checkAndMarkOverdueBillings db now).usageRecords = db.usageRecords := by
  unfold checkAndMarkOverdueBillings
  rw [sweepFold_eq]
  exact ⟨rfl, rfl, rfl⟩

/-- Helper: the auto-pay sweep never touches the other three tables. -/
theorem autoPay_fields (db : Db) (now : Int) :
    (autoPayFreePlanInvoices db now).organizations = db.organizations ∧
    (autoPayFreePlanInvoices db now).apiKeys = db.apiKeys ∧
    (autoPayFreePlanInvoices db now).usageRecords = db.usageRecords := by
  unfold autoPayFreePlanInvoices
  rw [sweepFold_eq]
  exact ⟨rfl, rfl, rfl⟩

/-- Helper: positional pair fact for a store produced by a pointwise map. -/
theorem zip_pairs_of_map (db db' : Db) (f : BillingCycle → BillingCycle)
    (hb : db'.billingCycles = db.billingCycles.map f) :
    ∀ pr ∈ List.zip db.billingCycles db'.billingCycles, pr.2 = f pr.1 := by
  rw [hb]
  intro pr hpr
  have hz : List.zip db.billingCycles (db.billingCycles.map f)
      = db.billingCycles.map fun a => (a, f a) := by
    have h := List.zip_map' (fun a : BillingCycle => a) f db.billingCycles
    simpa using h
  rw [hz] at hpr
  obtain ⟨a, -, rfl⟩ := List.mem_map.mp hpr
  rfl

/-- Helper: a pointwise status rewrite satisfies `paidStays` as soon as the
rewriting function keeps paid rows paid. -/
theorem paidStays_of_map (db db' : Db) (f : BillingCycle → BillingCycle)
    (hb : db'.billingCycles = db.billingCycles.map f)
    (hf : ∀ x, x.status = BillingStatus.statusPaid →
      (f x).status = BillingStatus.statusPaid) :
    paidStays db db' := by
  intro pr hpr hp
  rw [zip_pairs_of_map db db' f hb pr hpr]
  exact hf pr.1 hp

/-- Helper: a pointwise status rewrite leaves untouched all rows the
rewriting function fixes. -/
theorem untouchedExcept_of_map (db db' : Db) (f : BillingCycle → BillingCycle)
    (p : BillingCycle → Prop)
    (hb : db'.billingCycles = db.billingCycles.map f)
    (hf : ∀ x, ¬ p x → f x = x) :
    untouchedExcept db db' p := by
  intro pr hpr hp
  rw [zip_pairs_of_map db db' f hb pr hpr]
  exact hf pr.1 hp

/-- Helper: an untouched store trivially satisfies `paidStays`. -/
theorem paidStays_refl (db : Db) : paidStays db db := by
  intro pr hpr hp
  have h := zip_pairs_of_map db db (fun c => c) (by rw [List.map_id']) pr hpr
  rw [h]
  exact hp

/-- Helper: an untouched store leaves every row untouched. -/
theorem untouchedExcept_refl (db : Db) (p : BillingCycle → Prop) :
    untouchedExcept db db p := by
  intro pr hpr _
  exact zip_pairs_of_map db db (fun c => c) (by rw [List.map_id']) pr hpr

/-- Helper: building the frame predicate from a pointwise map. -/
theorem frameOnly_of_map (db db' : Db) (f : BillingCycle → BillingCycle)
    (ho : db'.organizations = db.organizations) (ha : db'.apiKeys = db.apiKeys)
    (hu : db'.usageRecords = db.usageRecords)
    (hb : db'.billingCycles = db.billingCycles.map f)
    (hf : ∀ x, sameExceptStatus x (f x)) : frameOnly db db' := by
  refine ⟨ho, ha, hu, ?_⟩
  rw [hb, List.forall₂_map_right_iff]
  exact List.forall₂_same.mpr fun a _ => hf a

/-- Helper: the frame predicate holds for an untouched store. -/
theorem frameOnly_refl (db : Db) : frameOnly db db :=
  ⟨rfl, rfl, rfl, List.forall₂_same.mpr fun a _ => sameExceptStatus_refl a⟩

/-- Helper: a status update only rewrites statuses. -/
theorem frameOnly_update (db : Db) (cid : Nat) (s : BillingStatus) :
    frameOnly db (updateBillingCycleStatus db cid s) := by
  refine frameOnly_of_map db _ (fun c => if c.id == cid then { c with status := s } else c)
    rfl rfl rfl rfl ?_
  intro x
  by_cases h : (x.id == cid) = true <;> simp [h, sameExceptStatus]

/-- Helper: a status update leaves rows with other ids untouched. -/
theorem untouched_update (db : Db) (cid : Nat) (s : BillingStatus) :
    untouchedExcept db (updateBillingCycleStatus db cid s) (fun c => c.id = cid) := by
  refine untouchedExcept_of_map db _
    (fun c => if c.id == cid then { c with status := s } else c) _ rfl ?_
  intro x hnp
  have hb : ¬ (x.id == cid) = true := by simpa using hnp
  show (if (x.id == cid) = true then { x with status := s } else x) = x
  rw [if_neg hb]

/-- Helper: an update to 'paid' keeps paid rows paid. -/
theorem paidStays_update_paid (db : Db) (cid : Nat) :
    paidStays db (updateBillingCycleStatus db cid BillingStatus.statusPaid) := by
  refine paidStays_of_map db _
    (fun c => if c.id == cid then { c with status := BillingStatus.statusPaid } else c) rfl ?_
  intro x hp
  by_cases h : (x.id == cid) = true <;> simp [h, hp]

/-- Helper: the Stripe webhook either leaves the store alone or performs a
single update-to-paid. -/
theorem stripeWebhookHandler_db_cases (env : StripeEnv) (db : Db) (updOk : Bool)
    (body : List Nat) (sigHeader : Option String) :
    (stripeWebhookHandler env db updOk body sigHeader).1 = db ∨
    ∃ t, (stripeWebhookHandler env db updOk body sigHeader).1
      = updateBillingCycleStatus db t BillingStatus.statusPaid := by
  unfold stripeWebhookHandler
  repeat' split
  all_goals first
    | exact Or.inl rfl
    | exact Or.inr ⟨_, rfl⟩

/-- Helper: the Paystack webhook either leaves the store alone or performs a
single update-to-paid. -/
theorem paystackWebhookHandler_db_cases (env : PaystackEnv) (secret : String) (db : Db)
    (updOk : Bool) (body : List Nat) (sigHeader : Option String) :
    (paystackWebhookHandler env secret db updOk body sigHeader).1 = db ∨
    ∃ t, (paystackWebhookHandler env secret db updOk body sigHeader).1
      = updateBillingCycleStatus db t BillingStatus.statusPaid := by
  unfold paystackWebhookHandler
  repeat' split
  all_goals first
    | exact Or.inl rfl
    | exact Or.inr ⟨_, rfl⟩

/-- C7: billing-cycle status is a one-way machine: with unique row ids the
daily sweep marks Overdue exactly the Pending cycles whose `period_end` plus
the 7-day grace period lies strictly in the past (a Paid cycle is never
touched, whatever its age), and no operation of the system — overdue sweep,
zero-amount auto-pay sweep, either payment webhook, or the direct
update-to-paid — ever moves a row out of Paid. -/
theorem billingStatus_one_way (db : Db) (now : Int) (cid : Nat)
    (envS : StripeEnv) (envP : PaystackEnv) (secret : String) (updOk : Bool)
    (body : List Nat) (sigHeader : Option String)
    (hNodup : (db.billingCycles.map fun c => c.id).Nodup) :
    (checkAndMarkOverdueBillings db now).billingCycles
      = db.billingCycles.map (fun c =>
          if c.status = BillingStatus.statusPending ∧ now > c.periodEnd + gracePeriodSeconds
          then { c with status := BillingStatus.statusOverdue } else c) ∧
    paidStays db (checkAndMarkOverdueBillings db now) ∧
    paidStays db (autoPayFreePlanInvoices db now) ∧
    paidStays db (stripeWebhookHandler envS db updOk body sigHeader).1 ∧
    paidStays db (paystackWebhookHandler envP secret db updOk body sigHeader).1 ∧
    paidStays db (updateBillingCycleStatus db cid BillingStatus.statusPaid) := by
  have hover := checkAndMarkOverdue_eq db now hNodup
  refine ⟨hover, ?_, ?_, ?_, ?_, paidStays_update_paid db cid⟩
  · refine paidStays_of_map db _ _ hover ?_
    intro x hp
    simp [hp]
  · refine paidStays_of_map db _ _ (autoPay_eq db now hNodup) ?_
    intro x hp
    by_cases hc : x.status = BillingStatus.statusPending ∧ x.periodEnd < now ∧
        x.totalAmount = 0 <;>
      simp [hc, hp]
  · rcases stripeWebhookHandler_db_cases envS db updOk body sigHeader with h | ⟨t, h⟩
    · rw [h]; exact paidStays_refl db
    · rw [h]; exact paidStays_update_paid db t
  · rcases paystackWebhookHandler_db_cases envP secret db updOk body sigHeader with h | ⟨t, h⟩
    · rw [h]; exact paidStays_refl db
    · rw [h]; exact paidStays_update_paid db t

/-- Witness for C7 over a two-row store: an old pending cycle and a paid
cycle of the same age. -/
theorem billingStatus_one_way_witness :
    ((dbSweepEx.billingCycles.map fun c => c.id).Nodup) ∧
    ((checkAndMarkOverdueBillings dbSweepEx 1000000).billingCycles
      = dbSweepEx.billingCycles.map (fun c =>
          if c.status = BillingStatus.statusPending ∧
              (1000000 : Int) > c.periodEnd + gracePeriodSeconds
          then { c with status := BillingStatus.statusOverdue } else c) ∧
    paidStays dbSweepEx (checkAndMarkOverdueBillings dbSweepEx 1000000) ∧
    paidStays dbSweepEx (autoPayFreePlanInvoices dbSweepEx 1000000) ∧
    paidStays dbSweepEx (stripeWebhookHandler envStripeEx dbSweepEx true [] none).1 ∧
    paidStays dbSweepEx (paystackWebhookHandler envPaystackEx "sec" dbSweepEx true [] none).1 ∧
    paidStays dbSweepEx (updateBillingCycleStatus dbSweepEx 3 BillingStatus.statusPaid)) :=
  ⟨by decide,
    billingStatus_one_way dbSweepEx 1000000 3 envStripeEx envPaystackEx "sec" true [] none
      (by decide)⟩

/-- C10: every status transition the system performs — the direct status
update, the overdue sweep, the zero-amount auto-pay sweep, and both webhook
reconciliations — changes only the `status` column of the targeted rows:
the other three tables and every other column of every billing-cycle row are
unchanged, and every row other than the targeted ones is untouched. -/
theorem billing_ops_frame (db : Db) (now : Int) (cid : Nat) (s : BillingStatus)
    (envS : StripeEnv) (envP : PaystackEnv) (secret : String) (updOk : Bool)
    (body : List Nat) (sigHeader : Option String)
    (hNodup : (db.billingCycles.map fun c => c.id).Nodup) :
    frameOnly db (updateBillingCycleStatus db cid s) ∧
    untouchedExcept db (updateBillingCycleStatus db cid s) (fun c => c.id = cid) ∧
    frameOnly db (checkAndMarkOverdueBillings db now) ∧
    untouchedExcept db (checkAndMarkOverdueBillings db now)
      (fun c => c.status = BillingStatus.statusPending ∧
        now > c.periodEnd + gracePeriodSeconds) ∧
    frameOnly db (autoPayFreePlanInvoices db now) ∧
    untouchedExcept db (autoPayFreePlanInvoices db now)
      (fun c => c.status = BillingStatus.statusPending ∧ c.periodEnd < now ∧
        c.totalAmount = 0) ∧
    frameOnly db (stripeWebhookHandler envS db updOk body sigHeader).1 ∧
    (∃ t : Option Nat, untouchedExcept db (stripeWebhookHandler envS db updOk body sigHeader).1
      (fun c => t = some c.id)) ∧
    frameOnly db (paystackWebhookHandler envP secret db updOk body sigHeader).1 ∧
    (∃ t : Option Nat,
      untouchedExcept db (paystackWebhookHandler envP secret db updOk body sigHeader).1
        (fun c => t = some c.id)) := by
  have hover := checkAndMarkOverdue_eq db now hNodup
  have hauto := autoPay_eq db now hNodup
  have hofld := checkAndMarkOverdue_fields db now
  have hafld := autoPay_fields db now
  refine ⟨frameOnly_update db cid s, untouched_update db cid s, ?_, ?_, ?_, ?_, ?_, ?_, ?_, ?_⟩
  · refine frameOnly_of_map db _ _ hofld.1 hofld.2.1 hofld.2.2 hover ?_
    intro x
    by_cases hc : x.status = BillingStatus.statusPending ∧
        now > x.periodEnd + gracePeriodSeconds <;>
      simp [hc, sameExceptStatus]
  · refine untouchedExcept_of_map db _ _ _ hover ?_
    intro x hnp
    show (if x.status = BillingStatus.statusPending ∧ now > x.periodEnd + gracePeriodSeconds
        then { x with status := BillingStatus.statusOverdue } else x) = x
    rw [if_neg hnp]
  · refine frameOnly_of_map db _ _ hafld.1 hafld.2.1 hafld.2.2 hauto ?_
    intro x
    by_cases hc : x.status = BillingStatus.statusPending ∧ x.periodEnd < now ∧
        x.totalAmount = 0 <;>
      simp [hc, sameExceptStatus]
  · refine untouchedExcept_of_map db _ _ _ hauto ?_
    intro x hnp
    show (if x.status = BillingStatus.statusPending ∧ x.periodEnd < now ∧ x.totalAmount = 0
        then { x with status := BillingStatus.statusPaid } else x) = x
    rw [if_neg hnp]
  · rcases stripeWebhookHandler_db_cases envS db updOk body sigHeader with h | ⟨t, h⟩
    · rw [h]; exact frameOnly_refl db
    · rw [h]; exact frameOnly_update db t BillingStatus.statusPaid
  · rcases stripeWebhookHandler_db_cases envS db updOk body sigHeader with h | ⟨t, h⟩
    · exact ⟨none, by rw [h]; exact untouchedExcept_refl db _⟩
    · refine ⟨some t, ?_⟩
      rw [h]
      refine untouchedExcept_of_map db _
        (fun c => if c.id == t then { c with status := BillingStatus.statusPaid } else c) _ rfl ?_
      intro x hnp
      have hne : ¬ (x.id == t) = true := by
        simp only [beq_iff_eq]
        intro he
        exact hnp (by rw [he])
      show (if (x.id == t) = true then { x with status := BillingStatus.statusPaid } else x) = x
      rw [if_neg hne]
  · rcases paystackWebhookHandler_db_cases envP secret db updOk body sigHeader with h | ⟨t, h⟩
    · rw [h]; exact frameOnly_refl db
    · rw [h]; exact frameOnly_update db t BillingStatus.statusPaid
  · rcases paystackWebhookHandler_db_cases envP secret db updOk body sigHeader with h | ⟨t, h⟩
    · exact ⟨none, by rw [h]; exact untouchedExcept_refl db _⟩
    · refine ⟨some t, ?_⟩
      rw [h]
      refine untouchedExcept_of_map db _
        (fun c => if c.id == t then { c with status := BillingStatus.statusPaid } else c) _ rfl ?_
      intro x hnp
      have hne : ¬ (x.id == t) = true := by
        simp only [beq_iff_eq]
        intro he
        exact hnp (by rw [he])
      show (if (x.id == t) = true then { x with status := BillingStatus.statusPaid } else x) = x
      rw [if_neg hne]

/-- Witness for C10 over the same two-row store. -/
theorem billing_ops_frame_witness :
    ((dbSweepEx.billingCycles.map fun c => c.id).Nodup) ∧
    (frameOnly dbSweepEx (updateBillingCycleStatus dbSweepEx 3 BillingStatus.statusPaid) ∧
    untouchedExcept dbSweepEx (updateBillingCycleStatus dbSweepEx 3 BillingStatus.statusPaid)
      (fun c => c.id = 3) ∧
    frameOnly dbSweepEx (checkAndMarkOverdueBillings dbSweepEx 1000000) ∧
    untouchedExcept dbSweepEx (checkAndMarkOverdueBillings dbSweepEx 1000000)
      (fun c => c.status = BillingStatus.statusPending ∧
        (1000000 : Int) > c.periodEnd + gracePeriodSeconds) ∧
    frameOnly dbSweepEx (autoPayFreePlanInvoices dbSweepEx 1000000) ∧
    untouchedExcept dbSweepEx (autoPayFreePlanInvoices dbSweepEx 1000000)
      (fun c => c.status = BillingStatus.statusPending ∧ c.periodEnd < (1000000 : Int) ∧
        c.totalAmount = 0) ∧
    frameOnly dbSweepEx (stripeWebhookHandler envStripeEx dbSweepEx true [] none).1 ∧
    (∃ t : Option Nat,
      untouchedExcept dbSweepEx (stripeWebhookHandler envStripeEx dbSweepEx true [] none).1
        (fun c => t = some c.id)) ∧
    frameOnly dbSweepEx (paystackWebhookHandler envPaystackEx "sec" dbSweepEx true [] none).1 ∧
    (∃ t : Option Nat,
      untouchedExcept dbSweepEx
        (paystackWebhookHandler envPaystackEx "sec" dbSweepEx true [] none).1
        (fun c => t = some c.id))) :=
  ⟨by decide,
    billing_ops_frame dbSweepEx 1000000 3 BillingStatus.statusPaid envStripeEx envPaystackEx
      "sec" true [] none (by decide)⟩

end MultiTenantSaas
